import Mathlib

/-!
Shallow embedding of the simulation core of `braingeneers/drylab.py`.

Numeric values are modelled as exact rationals: a numpy float32 array of
length N becomes a function `Fin N → ℚ`, and the N×N weight matrix `G`
becomes `Fin N → Fin N → ℚ`.  The Poisson channel-noise draw inside
`Organoid.step` is an external source of randomness, so the sampled event
counts are passed to `step` as an explicit argument.  Each contiguous
statement block of the Python `step` method is translated as one phase
function, and `step` is their composition in source order.
-/

namespace Drylab

/-- The 4×N phase-variable matrix `VUA`: rows V, U, A and Adot.  The Python
code stores one matrix and exposes the rows as views; here the four rows are
fields of one structure, which carries the same information without
aliasing. -/
@[ext]
structure VUAState (N : ℕ) where
  V : Fin N → ℚ
  U : Fin N → ℚ
  A : Fin N → ℚ
  Adot : Fin N → ℚ

/-- The mutable object state of `Organoid.__init__`: the eleven per-cell
parameter vectors, the weight matrix `G`, the phase variables `VUA`, the
spike mask `fired`, the noise and STDP configuration, the three STDP traces
with their time constants, and the cached instrumentation currents `Isyn`
and `Idyn` written by `VUAdot`. -/
structure Organoid (N : ℕ) where
  a : Fin N → ℚ
  b : Fin N → ℚ
  c : Fin N → ℚ
  d : Fin N → ℚ
  C : Fin N → ℚ
  k : Fin N → ℚ
  Vr : Fin N → ℚ
  Vt : Fin N → ℚ
  Vp : Fin N → ℚ
  Vn : Fin N → ℚ
  tau : Fin N → ℚ
  G : Fin N → Fin N → ℚ
  vua : VUAState N
  fired : Fin N → Bool
  noise_event_rate : ℚ
  noise_event_size : ℚ
  do_stdp : Bool
  traces : Fin 3 → Fin N → ℚ
  tau_stdp : Fin 3 → ℚ
  Aplus : ℚ
  Aminus : ℚ
  Ascaling : ℚ
  Isyn : Fin N → ℚ
  Idyn : Fin N → ℚ

variable {N : ℕ}

/-- Property `Organoid.V`: the first row of `VUA`. -/
def Organoid.V (o : Organoid N) : Fin N → ℚ := o.vua.V

/-- Property `Organoid.U`: the second row of `VUA`. -/
def Organoid.U (o : Organoid N) : Fin N → ℚ := o.vua.U

/-- Property `Organoid.A`: the third row of `VUA`. -/
def Organoid.A (o : Organoid N) : Fin N → ℚ := o.vua.A

/-- Property `Organoid.Adot`: the fourth row of `VUA`. -/
def Organoid.Adot (o : Organoid N) : Fin N → ℚ := o.vua.Adot

/-- `NAcurrent = self.k*(self.V - self.Vr)*(self.V - self.Vt)` from
`Organoid.VUAdot`. -/
def computeNAcurrent (o : Organoid N) : Fin N → ℚ :=
  fun i => o.k i * (o.V i - o.Vr i) * (o.V i - o.Vt i)

/-- `self.Isyn = self.G@(self.A * self.Vn) - (self.G@self.A) * self.V` from
`Organoid.VUAdot` (matrix-vector products written as sums over the
presynaptic index). -/
def computeIsyn (o : Organoid N) : Fin N → ℚ :=
  fun i => (∑ j, o.G i j * (o.A j * o.Vn j)) - (∑ j, o.G i j * o.A j) * o.V i

/-- `self.Idyn = NAcurrent - self.U + Iin` from `Organoid.VUAdot`. -/
def computeIdyn (o : Organoid N) (Iin : Fin N → ℚ) : Fin N → ℚ :=
  fun i => computeNAcurrent o i - o.U i + Iin i

/-- The derivative matrix returned by `Organoid.VUAdot`: the stacked rows
`Vdot`, `Udot`, `Adot` and `Addot`. -/
def VUAdot (o : Organoid N) (Iin : Fin N → ℚ) : VUAState N where
  V := fun i => (computeIdyn o Iin i + computeIsyn o i) / o.C i
  U := fun i => o.a i * (o.b i * (o.V i - o.Vr i) - o.U i)
  A := fun i => o.Adot i / o.tau i
  Adot := fun i => -(o.A i + 2 * o.Adot i) / o.tau i

/-- First block of `Organoid.step`: the deferred reset
`self.V[self.fired] = self.c[self.fired]`,
`self.U[self.fired] += self.d[self.fired]`,
`self.Adot[self.fired] += 1`. -/
def resetPhase (o : Organoid N) : Organoid N :=
  { o with vua :=
    { o.vua with
      V := fun i => if o.fired i then o.c i else o.V i
      U := fun i => if o.fired i then o.U i + o.d i else o.U i
      Adot := fun i => if o.fired i then o.Adot i + 1 else o.Adot i } }

/-- Second block of `Organoid.step`: channel noise
`self.Adot += self.noise_event_size * num_noise_events`, with the Poisson
sample `num_noise_events` supplied from outside. -/
def noisePhase (noise : Fin N → ℕ) (o : Organoid N) : Organoid N :=
  { o with vua :=
    { o.vua with
      Adot := fun i => o.Adot i + o.noise_event_size * (noise i : ℚ) } }

/-- `self.fired.any()`. -/
def firedAny (o : Organoid N) : Bool := decide (∃ i, o.fired i = true)

/-- Presynaptic-spike depression
`self.G[:,self.fired] -= self.Aminus * self.traces[1,self.fired]`. -/
def depressG (o : Organoid N) : Fin N → Fin N → ℚ :=
  fun i j => if o.fired j then o.G i j - o.Aminus * o.traces 1 j else o.G i j

/-- Postsynaptic-spike potentiation
`self.G[self.fired,:] += self.Aplus * (self.traces[0,:] *
self.traces[2,self.fired,np.newaxis])`, applied to the matrix `g` left by
the depression update. -/
def potentiateG (o : Organoid N) (g : Fin N → Fin N → ℚ) : Fin N → Fin N → ℚ :=
  fun i j => if o.fired i then g i j + o.Aplus * (o.traces 0 j * o.traces 2 i) else g i j

/-- Synaptic scaling
`self.G[:,self.Vn > self.Vt] -= (self.traces[2,:,np.newaxis] - 0.5) *
dt*self.Ascaling`, applied to the matrix `g` left by the potentiation
update: the row broadcast subtracts `(trace_y[i] - 1/2)*dt*Ascaling` from
every selected column entry of row `i`. -/
def scaleG (dt : ℚ) (o : Organoid N) (g : Fin N → Fin N → ℚ) : Fin N → Fin N → ℚ :=
  fun i j => if o.Vt j < o.Vn j then g i j - (o.traces 2 i - 1/2) * dt * o.Ascaling else g i j

/-- The weight matrix after depression, potentiation and scaling, just
before `np.clip(self.G, 0, None, out=self.G)`. -/
def preClipG (dt : ℚ) (o : Organoid N) : Fin N → Fin N → ℚ :=
  scaleG dt o (potentiateG o (depressG o))

/-- `self.traces[:,self.fired] += 1`. -/
def bumpTraces (o : Organoid N) : Fin 3 → Fin N → ℚ :=
  fun r i => if o.fired i then o.traces r i + 1 else o.traces r i

/-- Third block of `Organoid.step` (`if self.do_stdp:`): when at least one
cell fired, update `G` by depression, potentiation and scaling, clip `G` at
zero and bump the traces of fired cells; in every case decay all traces by
`1 - dt / self.tau_stdp`. -/
def stdpPhase (dt : ℚ) (o : Organoid N) : Organoid N :=
  if o.do_stdp then
    let o1 :=
      if firedAny o then
        { o with
          G := fun i j => max (preClipG dt o i j) 0
          traces := bumpTraces o }
      else o
    { o1 with traces := fun r i => o1.traces r i * (1 - dt / o.tau_stdp r) }
  else o

/-- First half of the integration block: `k1 = self.VUAdot(Iin)` followed by
`self.VUA += k1 * dt/2`, with the caches `Isyn`/`Idyn` left by that first
derivative evaluation. -/
def halfStep (dt : ℚ) (Iin : Fin N → ℚ) (o : Organoid N) : Organoid N :=
  let k1 := VUAdot o Iin
  { o with
    vua :=
      { V := fun i => o.V i + k1.V i * dt / 2
        U := fun i => o.U i + k1.U i * dt / 2
        A := fun i => o.A i + k1.A i * dt / 2
        Adot := fun i => o.Adot i + k1.Adot i * dt / 2 }
    Isyn := computeIsyn o
    Idyn := computeIdyn o Iin }

/-- Fourth block of `Organoid.step`, midpoint integration:
`k1 = self.VUAdot(Iin)`, `self.VUA += k1 * dt/2`,
`k2 = self.VUAdot(Iin)`, `self.VUA += k2*dt - k1*dt/2`, with the caches
`Isyn`/`Idyn` left by the second derivative evaluation. -/
def integratePhase (dt : ℚ) (Iin : Fin N → ℚ) (o : Organoid N) : Organoid N :=
  let k1 := VUAdot o Iin
  let oh := halfStep dt Iin o
  let k2 := VUAdot oh Iin
  { oh with
    vua :=
      { V := fun i => oh.V i + (k2.V i * dt - k1.V i * dt / 2)
        U := fun i => oh.U i + (k2.U i * dt - k1.U i * dt / 2)
        A := fun i => oh.A i + (k2.A i * dt - k1.A i * dt / 2)
        Adot := fun i => oh.Adot i + (k2.Adot i * dt - k1.Adot i * dt / 2) }
    Isyn := computeIsyn oh
    Idyn := computeIdyn oh Iin }

/-- Fifth block of `Organoid.step`: the post-hoc current correction
`self.Idyn[self.fired] += self.C[self.fired] * (self.c[self.fired] -
self.Vp[self.fired])`, using the spike mask from the previous step. -/
def idynCorrectPhase (o : Organoid N) : Organoid N :=
  { o with
    Idyn := fun i => if o.fired i then o.Idyn i + o.C i * (o.c i - o.Vp i) else o.Idyn i }

/-- Last block of `Organoid.step`: `self.fired = self.V >= self.Vp` followed
by `self.V[self.fired] = self.Vp[self.fired]`. -/
def spikePhase (o : Organoid N) : Organoid N :=
  { o with
    fired := fun i => decide (o.Vp i ≤ o.V i)
    vua :=
      { o.vua with
        V := fun i => if o.Vp i ≤ o.V i then o.Vp i else o.V i } }

/-- `Organoid.step(dt, Iin)`: the composition, in source order, of the six
statement blocks of the Python method.  `noise` is the vector of Poisson
channel-opening counts drawn inside the Python method. -/
def step (dt : ℚ) (Iin : Fin N → ℚ) (noise : Fin N → ℕ) (o : Organoid N) : Organoid N :=
  spikePhase (idynCorrectPhase (integratePhase dt Iin
    (stdpPhase dt (noisePhase noise (resetPhase o)))))

/-- A sequence of `step` calls, each with its own timestep, input current
and noise sample. -/
def stepSeq (L : List (ℚ × (Fin N → ℚ) × (Fin N → ℕ))) (o : Organoid N) : Organoid N :=
  L.foldl (fun s p => step p.1 p.2.1 p.2.2 s) o

/-- Python exception kinds raised by the modelled code paths. -/
inductive PyError where
  | importError : PyError
  | attributeError : PyError
deriving DecidableEq

/-- What `backend_torch.array` evaluates to: either the CUDA tensor
constructor or the host-CPU tensor constructor. -/
inductive ArrayImpl where
  | torchCudaFloatTensor : ArrayImpl
  | torchCpuFloatTensor : ArrayImpl
deriving DecidableEq

/-- The four backend attributes read by `Organoid`. -/
inductive TorchBackendAttr where
  | array : TorchBackendAttr
  | stack : TorchBackendAttr
  | exp : TorchBackendAttr
  | sign : TorchBackendAttr
deriving DecidableEq

/-- The operation an attribute of `backend_torch` resolves to.  `array` is
`torch.cuda.FloatTensor` or `torch.FloatTensor` depending on
`torch.cuda.is_available()`; the other three are device-generic torch
functions (they run wherever their tensor arguments live). -/
inductive TorchOp where
  | tensorCtor : ArrayImpl → TorchOp
  | torchStack : TorchOp
  | torchExp : TorchOp
  | torchSign : TorchOp
deriving DecidableEq

/-- Attribute access on `backend_torch` as defined at module import time.
When `import torch` fails, `backend_torch` is replaced by an object whose
`__getattr__` re-raises the saved `ImportError` on any attribute access;
when the import succeeds, `array` is `torch.cuda.FloatTensor` if
`torch.cuda.is_available()` and `torch.FloatTensor` (the host-CPU tensor
constructor) otherwise. -/
def backendTorchGetattr (torchImportable cudaAvailable : Bool)
    (attr : TorchBackendAttr) : Except PyError TorchOp :=
  if torchImportable then
    Except.ok (match attr with
      | TorchBackendAttr.array =>
          TorchOp.tensorCtor (if cudaAvailable then ArrayImpl.torchCudaFloatTensor
                              else ArrayImpl.torchCpuFloatTensor)
      | TorchBackendAttr.stack => TorchOp.torchStack
      | TorchBackendAttr.exp => TorchOp.torchExp
      | TorchBackendAttr.sign => TorchOp.torchSign)
  else Except.error PyError.importError

/-- `backend_torch._has_cuda`: `torch.cuda.is_available()` when torch
imports, and the hard-coded `False` of the fallback class otherwise. -/
def backendTorchHasCuda (torchImportable cudaAvailable : Bool) : Bool :=
  torchImportable && cudaAvailable

/-- Object state of `ChargedMedium` on an `nx`×`ny` grid, immersed with an
organoid of `N` cells: the diffusion coefficient `D`, the grid coordinate
vectors and spacings, the charge density `rho`, the cached nearest-grid-cell
index per neuron, the previous-step voltage snapshot, and the probe caches
`_points`/`_r`/`_d` written by `probe_at` (modelled as `Option`: `none`
means the attribute has never been assigned).  `_r` and `_d` hold Euclidean
distances, which are irrational in general; they are modelled by the
squared distances, which carry the same information. -/
structure ChargedMedium (nx ny N : ℕ) where
  D : ℚ
  X : Fin nx → ℚ
  Y : Fin ny → ℚ
  dx : ℚ
  dy : ℚ
  rho : Fin nx → Fin ny → ℚ
  neuron_grid : Fin N → Fin nx × Fin ny
  Vprev : Fin N → ℚ
  pointsCache : Option (List (ℚ × ℚ)) := none
  rSqCache : Option (List (Fin nx → Fin ny → ℚ)) := none
  dSqCache : Option (List (Fin N → ℚ)) := none

variable {nx ny : ℕ}

/-- The square of the per-axis diffusion length
`self.sigma = np.sqrt(2*D) / np.array([self.dx, self.dy])` along the x
axis.  `sigma` only ever enters comparisons against non-negative bounds, so
the squared value determines all of its uses. -/
def sigmaSqX (m : ChargedMedium nx ny N) : ℚ := 2 * m.D / m.dx ^ 2

/-- The squared y-axis diffusion length, as `sigmaSqX`. -/
def sigmaSqY (m : ChargedMedium nx ny N) : ℚ := 2 * m.D / m.dy ^ 2

/-- The per-neuron charge increment of `ChargedMedium.step`:
`charge = self.org.C*(self.Vprev - self.org.V) / (self.dx*self.dy)`, where
`orgC` and `orgV` are the capacitance and current voltage read from the
immersed organoid. -/
def chargeIncrement (orgC orgV : Fin N → ℚ) (m : ChargedMedium nx ny N) : Fin N → ℚ :=
  fun i => orgC i * (m.Vprev i - orgV i) / (m.dx * m.dy)

/-- The scatter-add
`self.rho += sparse.coo_matrix((charge, self._neuron_grid), ...)`: the
charge increments of all neurons mapped to the same grid cell are summed
into that cell of `rho`. -/
def scatterRho (orgC orgV : Fin N → ℚ) (m : ChargedMedium nx ny N) :
    Fin nx → Fin ny → ℚ :=
  fun x y => m.rho x y +
    ∑ i ∈ Finset.univ.filter (fun i => m.neuron_grid i = (x, y)),
      chargeIncrement orgC orgV m i

/-- The square of the sigma threshold `1e-15` below which
`scipy.ndimage.gaussian_filter` skips an axis entirely. -/
def scipySigmaThresholdSq : ℚ := 1 / 10 ^ 30

/-- `scipy.ndimage.gaussian_filter` with a per-axis sigma, given by its
squared value: an axis whose sigma is at most `1e-15` is skipped (scipy
filters only the axes with `sigma > 1e-15`), and an axis above the
threshold is correlated with a normalized Gaussian kernel.  The kernel
weights involve real exponentials, so the two per-axis correlations are
taken as explicit function arguments `blurX` and `blurY`. -/
def gaussianFilter2 (blurX blurY : (Fin nx → Fin ny → ℚ) → Fin nx → Fin ny → ℚ)
    (sSqX sSqY : ℚ) (rho : Fin nx → Fin ny → ℚ) : Fin nx → Fin ny → ℚ :=
  let r1 := if scipySigmaThresholdSq < sSqX then blurX rho else rho
  if scipySigmaThresholdSq < sSqY then blurY r1 else r1

/-- `ChargedMedium.step(dt)`: scatter-add the per-neuron charge increments
into `rho`, apply one Gaussian diffusion step with per-axis sigma
`self.sigma * np.sqrt(dt)` (whose square is `sigmaSq * dt`), and snapshot
the organoid voltage as the next `Vprev`. -/
def ChargedMedium.step (blurX blurY : (Fin nx → Fin ny → ℚ) → Fin nx → Fin ny → ℚ)
    (dt : ℚ) (orgC orgV : Fin N → ℚ) (m : ChargedMedium nx ny N) :
    ChargedMedium nx ny N :=
  { m with
    rho := gaussianFilter2 blurX blurY (sigmaSqX m * dt) (sigmaSqY m * dt)
      (scatterRho orgC orgV m)
    Vprev := orgV }

/-- `ChargedMedium.probe_at(points)`: cache the probe points, the (squared)
distances from each probe point to every grid node, and the (squared)
distances from each probe point to every cell of the immersed organoid at
coordinates `orgXY`. -/
def ChargedMedium.probe_at (pts : List (ℚ × ℚ)) (orgXY : Fin N → ℚ × ℚ)
    (m : ChargedMedium nx ny N) : ChargedMedium nx ny N :=
  { m with
    pointsCache := some pts
    rSqCache := some (pts.map (fun p => fun x y =>
      (p.1 - m.X x) ^ 2 + (p.2 - m.Y y) ^ 2))
    dSqCache := some (pts.map (fun p => fun i =>
      (p.1 - (orgXY i).1) ^ 2 + (p.2 - (orgXY i).2) ^ 2)) }

/-- The caching control flow of `ChargedMedium.probe(points=None)`.  The
membership test `points not in (None, self._points)` first builds the tuple
`(None, self._points)`, which reads the attribute `self._points`; if
`probe_at` has never run, that attribute does not exist and an
`AttributeError` propagates.  Otherwise `probe_at` is re-run exactly when an
explicit `points` differing from the cached one is supplied, and the
potentials are then computed from the caches; the returned medium carries
the cache state on which that computation runs. -/
def ChargedMedium.probe (points : Option (List (ℚ × ℚ))) (orgXY : Fin N → ℚ × ℚ)
    (m : ChargedMedium nx ny N) : Except PyError (ChargedMedium nx ny N) :=
  match m.pointsCache with
  | none => Except.error PyError.attributeError
  | some cached =>
    match points with
    | none => Except.ok m
    | some pts =>
      if pts = cached then Except.ok m
      else Except.ok (ChargedMedium.probe_at pts orgXY m)

/-- The state advance `s + q·k` used by the spec to describe the midpoint
update (advance the state `s` by the derivative `k` times `q`). -/
def vuaAxpy (s : VUAState N) (q : ℚ) (k : VUAState N) : VUAState N where
  V := fun i => s.V i + k.V i * q
  U := fun i => s.U i + k.U i * q
  A := fun i => s.A i + k.A i * q
  Adot := fun i => s.Adot i + k.Adot i * q

/-- The reference per-cell form of the synaptic current from the spec:
`Isyn_i = Σ_j G[i,j]·A_j·(Vn_j − V_i)`, the standard conductance-based
synapse equation, written cell by cell. -/
def IsynSpec (o : Organoid N) : Fin N → ℚ :=
  fun i => ∑ j, o.G i j * o.A j * (o.Vn j - o.V i)

/-- A concrete one-cell organoid, used to instantiate the theorems: STDP is
enabled and the cell is marked `fired` from the previous step. -/
def oEx : Organoid 1 where
  a := fun _ => 1/50
  b := fun _ => 1
  c := fun _ => -2
  d := fun _ => 3
  C := fun _ => 1
  k := fun _ => 1
  Vr := fun _ => -6
  Vt := fun _ => -4
  Vp := fun _ => 5
  Vn := fun _ => 0
  tau := fun _ => 1
  G := fun _ _ => 1
  vua := { V := fun _ => 5, U := fun _ => 0, A := fun _ => 0, Adot := fun _ => 0 }
  fired := fun _ => true
  noise_event_rate := 0
  noise_event_size := 1/10
  do_stdp := true
  traces := fun _ _ => 1
  tau_stdp := fun _ => 15
  Aplus := 1
  Aminus := 1
  Ascaling := 1
  Isyn := fun _ => 0
  Idyn := fun _ => 0

/-- The same concrete organoid with plasticity disabled. -/
def oEx2 : Organoid 1 := { oEx with do_stdp := false }

/-- A concrete 1×1-grid medium with one immersed cell and `D = 0`, used to
instantiate the theorems; `probe_at` has never been called on it. -/
def mEx : ChargedMedium 1 1 1 where
  D := 0
  X := fun _ => 0
  Y := fun _ => 0
  dx := 1
  dy := 1
  rho := fun _ _ => 0
  neuron_grid := fun _ => (0, 0)
  Vprev := fun _ => 1

/-! ## Theorems -/

/-- `stdpPhase` writes only `G` and the traces: the phase variables are
untouched by the plasticity block. -/
theorem stdpPhase_vua (dt : ℚ) (o : Organoid N) : (stdpPhase dt o).vua = o.vua := by
  unfold stdpPhase
  by_cases h1 : o.do_stdp <;> by_cases h2 : firedAny o <;> simp [h1, h2]

/-- The weight matrix written by `stdpPhase`, by cases on the plasticity
flag and on whether any cell fired. -/
theorem stdpPhase_G (dt : ℚ) (o : Organoid N) :
    (stdpPhase dt o).G =
      if o.do_stdp then
        (if firedAny o then fun i j => max (preClipG dt o i j) 0 else o.G)
      else o.G := by
  unfold stdpPhase
  by_cases h1 : o.do_stdp <;> by_cases h2 : firedAny o <;> simp [h1, h2]

/-- The deferred-reset block writes only phase variables. -/
theorem resetPhase_do_stdp (o : Organoid N) : (resetPhase o).do_stdp = o.do_stdp := rfl

/-- The noise block writes only `Adot`. -/
theorem noisePhase_do_stdp (noise : Fin N → ℕ) (o : Organoid N) :
    (noisePhase noise o).do_stdp = o.do_stdp := rfl

/-- The deferred-reset block does not write the spike mask. -/
theorem resetPhase_fired (o : Organoid N) : (resetPhase o).fired = o.fired := rfl

/-- The noise block does not write the spike mask. -/
theorem noisePhase_fired (noise : Fin N → ℕ) (o : Organoid N) :
    (noisePhase noise o).fired = o.fired := rfl

/-- The deferred-reset block does not write the weight matrix. -/
theorem resetPhase_G (o : Organoid N) : (resetPhase o).G = o.G := rfl

/-- The noise block does not write the weight matrix. -/
theorem noisePhase_G (noise : Fin N → ℕ) (o : Organoid N) :
    (noisePhase noise o).G = o.G := rfl

/-- The reset and noise blocks write neither the spike mask nor anything
the plasticity update reads, so `firedAny` is unchanged by them. -/
theorem firedAny_noise_reset (noise : Fin N → ℕ) (o : Organoid N) :
    firedAny (noisePhase noise (resetPhase o)) = firedAny o := rfl

/-- The reset and noise blocks change nothing the plasticity update reads,
so the pre-clip weight matrix computed after them is the one computed on
the incoming state. -/
theorem preClipG_noise_reset (dt : ℚ) (noise : Fin N → ℕ) (o : Organoid N) :
    preClipG dt (noisePhase noise (resetPhase o)) = preClipG dt o := rfl

/-- The reset, noise, integration, current-correction and spike blocks of
`step` never write the weight matrix, so the `G` left by `step` is the `G`
left by the plasticity block. -/
theorem step_G_eq (dt : ℚ) (Iin : Fin N → ℚ) (noise : Fin N → ℕ) (o : Organoid N) :
    (step dt Iin noise o).G = (stdpPhase dt (noisePhase noise (resetPhase o))).G := by
  simp only [step, spikePhase, idynCorrectPhase, integratePhase, halfStep]

/-- The weight matrix after one full `step`, by cases on the plasticity
flag and the spike mask. -/
theorem step_G_spec (dt : ℚ) (Iin : Fin N → ℚ) (noise : Fin N → ℕ) (o : Organoid N) :
    (step dt Iin noise o).G =
      if o.do_stdp then
        (if firedAny o then fun i j => max (preClipG dt o i j) 0 else o.G)
      else o.G := by
  rw [step_G_eq, stdpPhase_G]
  simp only [noisePhase_do_stdp, resetPhase_do_stdp, firedAny_noise_reset,
    preClipG_noise_reset, noisePhase_G, resetPhase_G]

/-- The plasticity block does not write the traces when plasticity is
disabled. -/
theorem stdpPhase_traces_off (dt : ℚ) (o : Organoid N) (h : o.do_stdp = false) :
    (stdpPhase dt o).traces = o.traces := by
  unfold stdpPhase
  simp [h]

/-- The blocks of `step` other than the plasticity block never write the
traces. -/
theorem step_traces_eq (dt : ℚ) (Iin : Fin N → ℚ) (noise : Fin N → ℕ) (o : Organoid N) :
    (step dt Iin noise o).traces
      = (stdpPhase dt (noisePhase noise (resetPhase o))).traces := by
  simp only [step, spikePhase, idynCorrectPhase, integratePhase, halfStep]

/-- The plasticity block does not write the plasticity flag. -/
theorem stdpPhase_do_stdp (dt : ℚ) (o : Organoid N) :
    (stdpPhase dt o).do_stdp = o.do_stdp := by
  unfold stdpPhase
  by_cases h1 : o.do_stdp <;> by_cases h2 : firedAny o <;> simp [h1, h2]

/-- `step` does not write the plasticity flag. -/
theorem step_do_stdp (dt : ℚ) (Iin : Fin N → ℚ) (noise : Fin N → ℕ) (o : Organoid N) :
    (step dt Iin noise o).do_stdp = o.do_stdp := by
  have h : (step dt Iin noise o).do_stdp
      = (stdpPhase dt (noisePhase noise (resetPhase o))).do_stdp := by
    simp only [step, spikePhase, idynCorrectPhase, integratePhase, halfStep]
  rw [h, stdpPhase_do_stdp, noisePhase_do_stdp, resetPhase_do_stdp]

/-- The plasticity block does not write the peak-voltage parameter. -/
theorem stdpPhase_Vp (dt : ℚ) (o : Organoid N) : (stdpPhase dt o).Vp = o.Vp := by
  unfold stdpPhase
  by_cases h1 : o.do_stdp <;> by_cases h2 : firedAny o <;> simp [h1, h2]

/-- With plasticity enabled and a non-negative incoming weight matrix, one
`step` leaves the weight matrix non-negative. -/
theorem step_G_nonneg (dt : ℚ) (Iin : Fin N → ℚ) (noise : Fin N → ℕ) (o : Organoid N)
    (hstdp : o.do_stdp = true) (hG : ∀ i j, 0 ≤ o.G i j) :
    ∀ i j, 0 ≤ (step dt Iin noise o).G i j := by
  intro i j
  rw [step_G_spec]
  simp only [hstdp, if_true]
  by_cases h2 : firedAny o
  · simp only [h2, if_true]
    exact le_max_right _ _
  · simp only [h2, if_false]
    exact hG i j

/-- Non-negativity of the weight matrix is preserved by any sequence of
steps with plasticity enabled. -/
theorem stepSeq_G_nonneg (L : List (ℚ × (Fin N → ℚ) × (Fin N → ℕ))) :
    ∀ o : Organoid N, o.do_stdp = true → (∀ i j, 0 ≤ o.G i j) →
      ∀ i j, 0 ≤ (stepSeq L o).G i j := by
  induction L with
  | nil => intro o _ hG; exact hG
  | cons p t ih =>
      intro o hs hG
      have h1 : stepSeq (p :: t) o = stepSeq t (step p.1 p.2.1 p.2.2 o) := rfl
      rw [h1]
      exact ih _ (by rw [step_do_stdp]; exact hs) (step_G_nonneg _ _ _ _ hs hG)

/-- Claim C1: for every cell marked `fired` at the end of the previous
step, the next `step` call first sets its `V` to exactly `c`, adds `d` to
its `U` and adds `1` to its `Adot`; these reset values are still in place
after the noise and plasticity blocks (which add only the channel-noise
term to `Adot`), i.e. the deferred reset happens before noise injection,
before the plasticity update, and before any derivative evaluation or
integration of that call. -/
theorem step_applies_deferred_reset_first (dt : ℚ) (Iin : Fin N → ℚ) (noise : Fin N → ℕ)
    (o : Organoid N) (i : Fin N) (hi : o.fired i = true) :
    (resetPhase o).V i = o.c i
    ∧ (resetPhase o).U i = o.U i + o.d i
    ∧ (resetPhase o).Adot i = o.Adot i + 1
    ∧ (stdpPhase dt (noisePhase noise (resetPhase o))).V i = o.c i
    ∧ (stdpPhase dt (noisePhase noise (resetPhase o))).U i = o.U i + o.d i
    ∧ (stdpPhase dt (noisePhase noise (resetPhase o))).Adot i
        = o.Adot i + 1 + o.noise_event_size * (noise i : ℚ)
    ∧ step dt Iin noise o
        = spikePhase (idynCorrectPhase (integratePhase dt Iin
            (stdpPhase dt (noisePhase noise (resetPhase o))))) := by
  have hv := stdpPhase_vua dt (noisePhase noise (resetPhase o))
  have h1 : (resetPhase o).V i = o.c i := by
    simp [resetPhase, Organoid.V, hi]
  have h2 : (resetPhase o).U i = o.U i + o.d i := by
    simp [resetPhase, Organoid.U, hi]
  have h3 : (resetPhase o).Adot i = o.Adot i + 1 := by
    simp [resetPhase, Organoid.Adot, hi]
  have h4 : (stdpPhase dt (noisePhase noise (resetPhase o))).V i = (resetPhase o).V i := by
    show (stdpPhase dt (noisePhase noise (resetPhase o))).vua.V i = _
    rw [hv]
    rfl
  have h5 : (stdpPhase dt (noisePhase noise (resetPhase o))).U i = (resetPhase o).U i := by
    show (stdpPhase dt (noisePhase noise (resetPhase o))).vua.U i = _
    rw [hv]
    rfl
  have h6 : (stdpPhase dt (noisePhase noise (resetPhase o))).Adot i
      = (resetPhase o).Adot i + o.noise_event_size * (noise i : ℚ) := by
    show (stdpPhase dt (noisePhase noise (resetPhase o))).vua.Adot i = _
    rw [hv]
    rfl
  exact ⟨h1, h2, h3, by rw [h4, h1], by rw [h5, h2], by rw [h6, h3], rfl⟩

/-- Witness for `step_applies_deferred_reset_first` on the concrete
organoid `oEx`. -/
theorem step_applies_deferred_reset_first_witness :
    (resetPhase oEx).V 0 = oEx.c 0
    ∧ (resetPhase oEx).U 0 = oEx.U 0 + oEx.d 0
    ∧ (resetPhase oEx).Adot 0 = oEx.Adot 0 + 1
    ∧ (stdpPhase 1 (noisePhase (fun _ => 2) (resetPhase oEx))).V 0 = oEx.c 0
    ∧ (stdpPhase 1 (noisePhase (fun _ => 2) (resetPhase oEx))).U 0 = oEx.U 0 + oEx.d 0
    ∧ (stdpPhase 1 (noisePhase (fun _ => 2) (resetPhase oEx))).Adot 0
        = oEx.Adot 0 + 1 + oEx.noise_event_size * ((2 : ℕ) : ℚ)
    ∧ step 1 (fun _ => 0) (fun _ => 2) oEx
        = spikePhase (idynCorrectPhase (integratePhase 1 (fun _ => 0)
            (stdpPhase 1 (noisePhase (fun _ => 2) (resetPhase oEx))))) :=
  step_applies_deferred_reset_first 1 (fun _ => 0) (fun _ => 2) oEx 0 rfl

/-- Claim C2: with plasticity enabled, any sequence of steps starting from
a non-negative weight matrix keeps every entry of `G` non-negative, and
whenever the depression/potentiation/scaling updates of one step drive an
entry to zero or below before the clip, that entry is left at exactly
zero. -/
theorem stdp_G_never_negative (o : Organoid N) (hstdp : o.do_stdp = true)
    (hG : ∀ i j, 0 ≤ o.G i j) (L : List (ℚ × (Fin N → ℚ) × (Fin N → ℕ))) :
    (∀ i j, 0 ≤ (stepSeq L o).G i j)
    ∧ (∀ dt (Iin : Fin N → ℚ) (noise : Fin N → ℕ) i j, firedAny o = true →
        preClipG dt o i j ≤ 0 → (step dt Iin noise o).G i j = 0) := by
  constructor
  · exact stepSeq_G_nonneg L o hstdp hG
  · intro dt Iin noise i j hf hneg
    rw [step_G_spec]
    simp only [hstdp, hf, if_true]
    exact max_eq_right hneg

/-- Witness for `stdp_G_never_negative` on the concrete organoid `oEx`. -/
theorem stdp_G_never_negative_witness :
    (0 : ℚ) ≤ (stepSeq [(1, fun _ => 0, fun _ => 0)] oEx).G 0 0 :=
  (stdp_G_never_negative oEx rfl (by decide) [(1, fun _ => 0, fun _ => 0)]).1 0 0

/-- Claim C3: the vectorized synaptic current
`Isyn = G·(A⊙Vn) − (G·A)⊙V` computed by the derivative function equals, for
every postsynaptic cell, the reference form
`Isyn_i = Σ_j G[i,j]·A_j·(Vn_j − V_i)`. -/
theorem Isyn_vectorized_refines_reference (o : Organoid N) (i : Fin N) :
    computeIsyn o i = IsynSpec o i := by
  unfold computeIsyn IsynSpec
  rw [Finset.sum_mul, ← Finset.sum_sub_distrib]
  exact Finset.sum_congr rfl (fun j _ => by ring)

/-- Claim C4: the integration block evaluates `k1` at the incoming state,
advances to the half state `S0 + k1·dt/2`, evaluates `k2` there, and the
final phase variables equal `S0 + k2·dt`; the source's update of the
half-advanced state by `k2·dt − k1·dt/2` coincides with advancing the
original state by `k2·dt`.  Within `step`, the state fed to the
integration block is the one left by the reset, noise and plasticity
blocks. -/
theorem step_midpoint_integration (dt : ℚ) (Iin : Fin N → ℚ) (noise : Fin N → ℕ)
    (o : Organoid N) :
    (halfStep dt Iin o).vua = vuaAxpy o.vua (dt/2) (VUAdot o Iin)
    ∧ (integratePhase dt Iin o).vua = vuaAxpy o.vua dt (VUAdot (halfStep dt Iin o) Iin)
    ∧ (∀ i, (halfStep dt Iin o).V i
          + ((VUAdot (halfStep dt Iin o) Iin).V i * dt - (VUAdot o Iin).V i * dt / 2)
        = o.V i + (VUAdot (halfStep dt Iin o) Iin).V i * dt)
    ∧ step dt Iin noise o
        = spikePhase (idynCorrectPhase (integratePhase dt Iin
            (stdpPhase dt (noisePhase noise (resetPhase o))))) := by
  refine ⟨?_, ?_, ?_, rfl⟩
  · ext i <;> dsimp only [halfStep, vuaAxpy, Organoid.V, Organoid.U, Organoid.A, Organoid.Adot] <;> ring
  · ext i <;> dsimp only [integratePhase, halfStep, vuaAxpy, Organoid.V, Organoid.U, Organoid.A, Organoid.Adot] <;> ring
  · intro i
    dsimp only [halfStep, Organoid.V]
    ring

/-- Claim C5: after every completed `step`, every cell's voltage is at most
`Vp`; the new `fired` mask records exactly the cells whose just-integrated
voltage reached `Vp`, and those cells' voltages are clamped to exactly
`Vp`. -/
theorem step_clamps_voltage_at_peak (dt : ℚ) (Iin : Fin N → ℚ) (noise : Fin N → ℕ)
    (o : Organoid N) (i : Fin N) :
    (step dt Iin noise o).V i ≤ o.Vp i
    ∧ (step dt Iin noise o).fired i
        = decide (o.Vp i ≤ (integratePhase dt Iin
            (stdpPhase dt (noisePhase noise (resetPhase o)))).V i)
    ∧ (step dt Iin noise o).V i
        = (if o.Vp i ≤ (integratePhase dt Iin
              (stdpPhase dt (noisePhase noise (resetPhase o)))).V i
           then o.Vp i
           else (integratePhase dt Iin
              (stdpPhase dt (noisePhase noise (resetPhase o)))).V i) := by
  have hVp : (idynCorrectPhase (integratePhase dt Iin
      (stdpPhase dt (noisePhase noise (resetPhase o))))).Vp = o.Vp := by
    dsimp only [idynCorrectPhase, integratePhase, halfStep]
    rw [stdpPhase_Vp]
    rfl
  have hV : (idynCorrectPhase (integratePhase dt Iin
      (stdpPhase dt (noisePhase noise (resetPhase o))))).V
      = (integratePhase dt Iin (stdpPhase dt (noisePhase noise (resetPhase o)))).V := rfl
  have h2 : (step dt Iin noise o).fired i
      = decide ((idynCorrectPhase (integratePhase dt Iin
          (stdpPhase dt (noisePhase noise (resetPhase o))))).Vp i
        ≤ (idynCorrectPhase (integratePhase dt Iin
          (stdpPhase dt (noisePhase noise (resetPhase o))))).V i) := rfl
  have h3 : (step dt Iin noise o).V i
      = (if (idynCorrectPhase (integratePhase dt Iin
            (stdpPhase dt (noisePhase noise (resetPhase o))))).Vp i
          ≤ (idynCorrectPhase (integratePhase dt Iin
            (stdpPhase dt (noisePhase noise (resetPhase o))))).V i
         then (idynCorrectPhase (integratePhase dt Iin
            (stdpPhase dt (noisePhase noise (resetPhase o))))).Vp i
         else (idynCorrectPhase (integratePhase dt Iin
            (stdpPhase dt (noisePhase noise (resetPhase o))))).V i) := rfl
  rw [hVp, hV] at h2 h3
  refine ⟨?_, h2, h3⟩
  rw [h3]
  split
  · exact le_rfl
  · next h => exact (lt_of_not_le h).le

/-- Claim C6: with plasticity enabled and at least one fired cell, the
scaling stage subtracts `(trace_y[i] − 1/2)·dt·Ascaling` from entry `(i,j)`
of the matrix left by depression and potentiation exactly when
`Vn[j] > Vt[j]`, leaving the other columns untouched, and the step's final
weight matrix is that scaled matrix clipped at zero. -/
theorem stdp_scaling_targets_excitatory_columns (dt : ℚ) (Iin : Fin N → ℚ)
    (noise : Fin N → ℕ) (o : Organoid N) (hstdp : o.do_stdp = true)
    (hf : firedAny o = true) (i j : Fin N) :
    preClipG dt o i j
      = (if o.Vt j < o.Vn j
         then potentiateG o (depressG o) i j - (o.traces 2 i - 1/2) * dt * o.Ascaling
         else potentiateG o (depressG o) i j)
    ∧ (step dt Iin noise o).G i j = max (preClipG dt o i j) 0 := by
  refine ⟨rfl, ?_⟩
  rw [step_G_spec]
  simp only [hstdp, hf, if_true]

/-- Witness for `stdp_scaling_targets_excitatory_columns` on the concrete
organoid `oEx`. -/
theorem stdp_scaling_targets_excitatory_columns_witness :
    preClipG 1 oEx 0 0
      = (if oEx.Vt 0 < oEx.Vn 0
         then potentiateG oEx (depressG oEx) 0 0 - (oEx.traces 2 0 - 1/2) * 1 * oEx.Ascaling
         else potentiateG oEx (depressG oEx) 0 0)
    ∧ (step 1 (fun _ => 0) (fun _ => 0) oEx).G 0 0 = max (preClipG 1 oEx 0 0) 0 :=
  stdp_scaling_targets_excitatory_columns 1 (fun _ => 0) (fun _ => 0) oEx rfl (by decide) 0 0

/-- Claim C9: with plasticity disabled, `step` leaves the weight matrix and
the three STDP traces exactly unchanged, whatever fired, whatever the noise
sample and whatever the input current. -/
theorem step_without_stdp_preserves_G_and_traces (dt : ℚ) (Iin : Fin N → ℚ)
    (noise : Fin N → ℕ) (o : Organoid N) (h : o.do_stdp = false) :
    (step dt Iin noise o).G = o.G ∧ (step dt Iin noise o).traces = o.traces := by
  constructor
  · rw [step_G_spec]
    simp [h]
  · rw [step_traces_eq, stdpPhase_traces_off dt (noisePhase noise (resetPhase o)) h]
    rfl

/-- Witness for `step_without_stdp_preserves_G_and_traces` on the concrete
organoid `oEx2`. -/
theorem step_without_stdp_preserves_G_and_traces_witness :
    (step 1 (fun _ => 0) (fun _ => 0) oEx2).G = oEx2.G
    ∧ (step 1 (fun _ => 0) (fun _ => 0) oEx2).traces = oEx2.traces :=
  step_without_stdp_preserves_G_and_traces 1 (fun _ => 0) (fun _ => 0) oEx2 rfl

/-- Counterexample to claim C7 as stated: with torch importable but no CUDA
accelerator available, reading `backend_torch.array` does not raise — it
silently resolves to `torch.FloatTensor`, the host-CPU tensor constructor,
so computation falls back to the host CPU instead of failing fast. -/
theorem backend_torch_silent_cpu_fallback :
    backendTorchGetattr true false TorchBackendAttr.array
      = Except.ok (TorchOp.tensorCtor ArrayImpl.torchCpuFloatTensor)
    ∧ backendTorchHasCuda true false = false := ⟨rfl, rfl⟩

/-- Amended claim C7: when torch itself is not importable, every attribute
access on `backend_torch` raises the saved ImportError at first use (fail
fast, no fallback); but when torch imports and CUDA is unavailable,
`backend_torch.array` silently resolves to the host-CPU constructor
`torch.FloatTensor`. -/
theorem backend_torch_fail_fast_only_without_torch (c : Bool) (attr : TorchBackendAttr) :
    backendTorchGetattr false c attr = Except.error PyError.importError
    ∧ backendTorchGetattr true c TorchBackendAttr.array
        = Except.ok (TorchOp.tensorCtor
            (if c then ArrayImpl.torchCudaFloatTensor else ArrayImpl.torchCpuFloatTensor)) :=
  ⟨rfl, rfl⟩

/-- Claim C8: every `ChargedMedium.step` adds to each grid cell the summed
charge increments `C·(V_prev − V_now)/(dx·dy)` of the neurons mapped there
(before diffusion), and with `D = 0` the Gaussian kernel has zero width, the
filter is skipped, and the grid-summed `rho` changes by exactly the total
injected charge — whatever the Gaussian correlation operators are. -/
theorem medium_step_conserves_charge {nx ny M : ℕ} (m : ChargedMedium nx ny M)
    (blurX blurY : (Fin nx → Fin ny → ℚ) → Fin nx → Fin ny → ℚ)
    (dt : ℚ) (orgC orgV : Fin M → ℚ) (hD : m.D = 0) :
    (∀ x y, (ChargedMedium.step blurX blurY dt orgC orgV m).rho x y
        = m.rho x y + ∑ i ∈ Finset.univ.filter (fun i => m.neuron_grid i = (x, y)),
            chargeIncrement orgC orgV m i)
    ∧ (∑ x, ∑ y, (ChargedMedium.step blurX blurY dt orgC orgV m).rho x y)
        = (∑ x, ∑ y, m.rho x y) + ∑ i, chargeIncrement orgC orgV m i := by
  have hx : ¬ scipySigmaThresholdSq < sigmaSqX m * dt := by
    unfold scipySigmaThresholdSq sigmaSqX
    rw [hD]
    norm_num
  have hy : ¬ scipySigmaThresholdSq < sigmaSqY m * dt := by
    unfold scipySigmaThresholdSq sigmaSqY
    rw [hD]
    norm_num
  have hrho : (ChargedMedium.step blurX blurY dt orgC orgV m).rho
      = scatterRho orgC orgV m := by
    show gaussianFilter2 blurX blurY (sigmaSqX m * dt) (sigmaSqY m * dt)
      (scatterRho orgC orgV m) = _
    unfold gaussianFilter2
    simp [hx, hy]
  constructor
  · intro x y
    rw [hrho]
    rfl
  · rw [hrho]
    unfold scatterRho
    simp only [Finset.sum_add_distrib]
    congr 1
    have h3 : (∑ x, ∑ y, ∑ i ∈ Finset.univ.filter
          (fun i => m.neuron_grid i = (x, y)), chargeIncrement orgC orgV m i)
        = ∑ p : Fin nx × Fin ny, ∑ i ∈ Finset.univ.filter
            (fun i => m.neuron_grid i = p), chargeIncrement orgC orgV m i :=
      (Fintype.sum_prod_type (fun p : Fin nx × Fin ny =>
        ∑ i ∈ Finset.univ.filter (fun i => m.neuron_grid i = p),
          chargeIncrement orgC orgV m i)).symm
    rw [h3]
    exact Finset.sum_fiberwise Finset.univ (fun i => m.neuron_grid i)
      (chargeIncrement orgC orgV m)

/-- Witness for `medium_step_conserves_charge` on the concrete medium
`mEx`. -/
theorem medium_step_conserves_charge_witness :
    (∑ x, ∑ y, (ChargedMedium.step id id 1 (fun _ => 1) (fun _ => 0) mEx).rho x y)
      = (∑ x, ∑ y, mEx.rho x y) + ∑ i, chargeIncrement (fun _ => 1) (fun _ => 0) mEx i :=
  (medium_step_conserves_charge mEx id id 1 (fun _ => 1) (fun _ => 0) rfl).2

/-- Claim C10: calling `probe` with an explicit `points` argument before
`probe_at` has ever been called raises an AttributeError instead of
returning potentials, because building the tuple of the membership test
`points not in (None, self._points)` reads the never-assigned cached-points
attribute. -/
theorem probe_with_points_before_probe_at_raises {nx ny M : ℕ}
    (m : ChargedMedium nx ny M) (orgXY : Fin M → ℚ × ℚ) (pts : List (ℚ × ℚ))
    (h : m.pointsCache = none) :
    ChargedMedium.probe (some pts) orgXY m = Except.error PyError.attributeError := by
  unfold ChargedMedium.probe
  rw [h]

/-- Witness for `probe_with_points_before_probe_at_raises` on the concrete
medium `mEx`. -/
theorem probe_with_points_before_probe_at_raises_witness :
    ChargedMedium.probe (some [(0, 0)]) (fun _ => (0, 0)) mEx
      = Except.error PyError.attributeError :=
  probe_with_points_before_probe_at_raises mEx (fun _ => (0, 0)) [(0, 0)] rfl

end Drylab
